import Mathlib

/-!
Verification development for the AMQP 1.0 connection core of the
actix-amqp repository (src/connection.rs, src/errors.rs).

The connection driver state and its operations are shallowly embedded:
the slab session table becomes a list of optional channel states with a
first-free-index allocator, the remote-channel hash map becomes an
association list, the outgoing VecDeque becomes a FIFO list, and the
poll loops become pure functions driven by explicit oracles for the
transport (flush outcomes, heartbeat actions, decoded frames).
Shared-cell mutation of session inner blocks is modelled by returning
the updated session values. Modules of the repository that are not part
of the given sources (session.rs, hb.rs, the Configuration type) are
modelled from the specification and marked as such.
-/

namespace Amqp

/-- Wire-level AMQP error record (protocol::Error of the codec crate,
kept opaque: a condition code plus an optional description). -/
structure ProtocolError where
  condition : Nat
  description : Option String
deriving DecidableEq, Repr

/-- Transport error taxonomy, from src/errors.rs (AmqpTransportError).
The codec error payload is opaque. -/
inductive AmqpTransportError where
  | Codec (e : Nat)
  | TooManyChannels
  | Disconnected
  | Timeout
  | Closed (err : Option ProtocolError)
  | SessionEnded (err : Option ProtocolError)
  | LinkDetached (err : Option ProtocolError)
deriving DecidableEq, Repr

/-- Begin performative fields read or written by connection.rs. The
capability and property fields are always None in the source and are
omitted. -/
structure Begin where
  remote_channel : Option Nat
  next_outgoing_id : Nat
  incoming_window : Nat
  outgoing_window : Nat
  handle_max : Nat
deriving DecidableEq, Repr

/-- Performatives routed by the connection core. Attach, Flow,
Transfer, Disposition and Detach are forwarded opaquely and carry an
opaque payload. -/
inductive Frame where
  | Empty
  | Open
  | Begin (b : Amqp.Begin)
  | Attach (a : Nat)
  | Flow (x : Nat)
  | Transfer (x : Nat)
  | Disposition (x : Nat)
  | Detach (x : Nat)
  | End (error : Option ProtocolError)
  | Close (error : Option ProtocolError)
deriving DecidableEq, Repr

/-- A frame on the wire: channel id (u16 on the wire, kept as Nat with
explicit % 65536 at the cast sites) plus a performative. -/
structure AmqpFrame where
  channel_id : Nat
  performative : Frame
deriving DecidableEq, Repr

/-- Mirror of AmqpFrame::new. -/
def AmqpFrame.new (channel_id : Nat) (performative : Frame) : AmqpFrame :=
  ⟨channel_id, performative⟩

/-- Modelled from the spec: per-endpoint Configuration (spec section 3);
the Configuration type lives outside the given sources. Only the fields
the connection core reads are kept. -/
structure Configuration where
  channel_max : Nat
  idle_time_out : Nat
deriving DecidableEq, Repr

/-- Modelled from the spec: session inner state (src/session.rs is not
among the given sources). Fields per spec section 3: id is the local
token, the remaining fields record the Begin pairing, plus the terminal
error slot. The controller back-reference and the link registry are
omitted (opaque to the core). -/
structure SessionInner where
  id : Nat
  initiator : Bool
  remote_channel : Nat
  next_outgoing_id : Nat
  incoming_window : Nat
  outgoing_window : Nat
  error : Option AmqpTransportError
deriving DecidableEq, Repr

/-- Mirror of SessionInner::new: fresh session state with an empty
error slot. -/
def SessionInner.new (id : Nat) (initiator : Bool) (remote_channel : Nat)
    (next_outgoing_id : Nat) (incoming_window : Nat) (outgoing_window : Nat) : SessionInner :=
  ⟨id, initiator, remote_channel, next_outgoing_id, incoming_window, outgoing_window, none⟩

/-- Modelled from the spec: SessionInner::set_error stores the terminal
error in the error slot of the session (spec section 3: in-flight
operations observe the stored error). -/
def SessionInner.set_error (s : SessionInner) (err : AmqpTransportError) : SessionInner :=
  { s with error := some err }

/-- Channel slot state, from connection.rs (ChannelState). The oneshot
sender of an Opening slot is modelled by whether its receiver is still
alive (the send succeeds); the weak connection back-reference is
omitted. A Closing slot records whether the waiter is still present. -/
inductive ChannelState where
  | Opening (waiterAlive : Bool)
  | Established (session : SessionInner)
  | Closing (waiterPresent : Bool)
deriving DecidableEq, Repr

/-- Mirror of ChannelState::is_opening. -/
def ChannelState.is_opening : ChannelState → Bool
  | ChannelState.Opening _ => true
  | _ => false

/-- True for the slot states that the remote channel map may point to. -/
def ChannelState.in_map_state : ChannelState → Bool
  | ChannelState.Opening _ => false
  | ChannelState.Established _ => true
  | ChannelState.Closing _ => true

/-- Dense slot allocator (slab::Slab) modelled as a list of optional
entries; lookup by index, vacant entries are none. -/
def slabGet : List (Option ChannelState) → Nat → Option ChannelState
  | [], _ => none
  | x :: _, 0 => x
  | _ :: rest, n + 1 => slabGet rest n

/-- Key of the vacant entry the allocator hands out: the first free
index (dense allocation per spec section 9). -/
def slabVacantKey : List (Option ChannelState) → Nat
  | [] => 0
  | none :: _ => 0
  | some _ :: rest => slabVacantKey rest + 1

/-- Write a slot at an index that is at most the length (insertion at
the vacant key extends the table by one). -/
def slabSet : List (Option ChannelState) → Nat → ChannelState → List (Option ChannelState)
  | [], _, v => [some v]
  | _ :: rest, 0, v => some v :: rest
  | x :: rest, n + 1, v => x :: slabSet rest n v

/-- Mirror of slab remove: the entry becomes vacant. -/
def slabRemove : List (Option ChannelState) → Nat → List (Option ChannelState)
  | [], _ => []
  | _ :: rest, 0 => none :: rest
  | x :: rest, n + 1 => x :: slabRemove rest n

/-- Remote-channel map (AHashMap u16 to usize) as an association list. -/
def mapGet : List (Nat × Nat) → Nat → Option Nat
  | [], _ => none
  | p :: rest, k => if p.1 = k then some p.2 else mapGet rest k

/-- Removal of a key from the remote-channel map. -/
def mapRemove : List (Nat × Nat) → Nat → List (Nat × Nat)
  | [], _ => []
  | p :: rest, k => if p.1 = k then mapRemove rest k else p :: mapRemove rest k

/-- Insertion overwrites any previous binding of the key. -/
def mapInsert (m : List (Nat × Nat)) (k v : Nat) : List (Nat × Nat) :=
  (k, v) :: mapRemove m k

/-- Connection lifecycle state, from connection.rs (State). -/
inductive State where
  | Normal
  | Closing
  | RemoteClose
  | Drop
deriving DecidableEq, Repr

/-- Connection inner state, from connection.rs (ConnectionInner). The
write task waker is a scheduling artifact and is omitted. The local and
remote Configuration fields are renamed because local is a reserved
word in Lean. -/
structure ConnectionInner where
  local_config : Configuration
  remote_config : Configuration
  write_queue : List AmqpFrame
  sessions : List (Option ChannelState)
  sessions_map : List (Nat × Nat)
  error : Option AmqpTransportError
  state : State
deriving DecidableEq, Repr

/-- Mirror of ConnectionInner::new. -/
def ConnectionInner.new (lc rc : Configuration) : ConnectionInner :=
  ⟨lc, rc, [], [], [], none, State.Normal⟩

/-- Mirror of ConnectionInner::post_frame: push the frame to the back
of the outgoing queue (the waker wake is a scheduling artifact). -/
def ConnectionInner.post_frame (inner : ConnectionInner) (frame : AmqpFrame) : ConnectionInner :=
  { inner with write_queue := inner.write_queue ++ [frame] }

/-- Mirror of ConnectionInner::pop_next_frame: pop the front of the
outgoing queue. -/
def ConnectionInner.pop_next_frame (inner : ConnectionInner) :
    Option AmqpFrame × ConnectionInner :=
  match inner.write_queue with
  | [] => (none, inner)
  | f :: rest => (some f, { inner with write_queue := rest })

/-- Sequential post_frame calls, used to state the FIFO property. -/
def ConnectionInner.post_frames (inner : ConnectionInner) : List AmqpFrame → ConnectionInner
  | [] => inner
  | f :: fs => (inner.post_frame f).post_frames fs

/-- Mirror of ConnectionInner::set_error, connection-state part: every
slot is dropped from the table, the remote-channel map is cleared and
the error slot is set. The mutation of the shared Established session
cells is observed through set_error_sessions below. -/
def ConnectionInner.set_error (inner : ConnectionInner) (err : AmqpTransportError) :
    ConnectionInner :=
  { inner with sessions := [], sessions_map := [], error := some err }

/-- Mirror of ConnectionInner::set_error, session part: the session
values that user handles observe after the call. The source iterates
the slab and calls SessionInner::set_error on every Established slot;
Opening and Closing slots are skipped. -/
def ConnectionInner.set_error_sessions (inner : ConnectionInner) (err : AmqpTransportError) :
    List SessionInner :=
  inner.sessions.filterMap (fun ch =>
    match ch with
    | some (ChannelState.Established ses) => some (ses.set_error err)
    | _ => none)

/-- Outcome of Connection::open_session as observable through the inner
state: an immediate failure, or a pending wait on the oneshot receiver
for the allocated token. -/
inductive OpenSessionOutcome where
  | failed (e : AmqpTransportError)
  | pending (token : Nat)
deriving DecidableEq, Repr

/-- Mirror of Connection::open_session (connection.rs lines 118-156):
fail with the stored error when the error slot is set; otherwise
allocate a slot, fail with TooManyChannels when the token reaches
channel_max, else install an Opening slot and post the Begin frame on
the token channel. -/
def Connection.open_session (inner : ConnectionInner) :
    ConnectionInner × OpenSessionOutcome :=
  match inner.error with
  | some e => (inner, OpenSessionOutcome.failed e)
  | none =>
    let token := slabVacantKey inner.sessions
    if token ≥ inner.local_config.channel_max then
      (inner, OpenSessionOutcome.failed AmqpTransportError.TooManyChannels)
    else
      let inner1 := { inner with
        sessions := slabSet inner.sessions token (ChannelState.Opening true) }
      let begin_frame : Begin :=
        ⟨none, 1, 4294967295, 4294967295, 4294967295⟩
      (inner1.post_frame (AmqpFrame.new (token % 65536) (Frame.Begin begin_frame)),
       OpenSessionOutcome.pending token)

/-- Mirror of Connection::register_remote_session (connection.rs lines
172-203): allocate a slot, install an Established session for the
peer-initiated channel, record the remote channel in the map and post
the answering Begin. -/
def Connection.register_remote_session (inner : ConnectionInner) (channel_id : Nat)
    (b : Begin) : ConnectionInner :=
  let token := slabVacantKey inner.sessions
  let session := SessionInner.new token false (token % 65536)
    b.next_outgoing_id b.incoming_window b.outgoing_window
  let inner1 := { inner with
    sessions := slabSet inner.sessions token (ChannelState.Established session),
    sessions_map := mapInsert inner.sessions_map channel_id token }
  let answer : Begin :=
    ⟨some channel_id, 1, 4294967295, b.incoming_window, 4294967295⟩
  inner1.post_frame (AmqpFrame.new (token % 65536) (Frame.Begin answer))

/-- Mirror of ConnectionInner::complete_session_creation (connection.rs
lines 567-607): pair an incoming Begin bearing remote_channel with the
matching local Opening slot; on success record the map entry and
transition the slot to Established. The send on a dropped waiter fails
and the source does nothing in that case (the todo comment); slots that
are absent or not Opening leave the state unchanged. The source unwraps
remote_channel; the call site guards it, and the none branch here is
unreachable from the driver. -/
def ConnectionInner.complete_session_creation (inner : ConnectionInner) (channel_id : Nat)
    (b : Begin) : ConnectionInner :=
  match b.remote_channel with
  | none => inner
  | some id =>
    match slabGet inner.sessions id with
    | some (ChannelState.Opening _) =>
      let session := SessionInner.new id true channel_id
        b.next_outgoing_id b.incoming_window b.outgoing_window
      { inner with
        sessions_map := mapInsert inner.sessions_map channel_id id,
        sessions := slabSet inner.sessions id (ChannelState.Established session) }
    | some _ => inner
    | none => inner

/-- Opaque per-session frame handling capabilities (handle_attach and
handle_frame live in src/session.rs, outside the given sources); the
driver consumes them through this narrow interface (spec section 9).
handle_attach returns the updated session and whether the attach was
consumed. -/
structure SessionHandlers where
  handle_attach : SessionInner → Nat → SessionInner × Bool
  handle_frame : SessionInner → Frame → SessionInner

/-- Trivial handler instance used to evaluate the driver on concrete
inputs: attaches are consumed and frames leave the session unchanged. -/
def idHandlers : SessionHandlers :=
  ⟨fun s _ => (s, true), fun s _ => s⟩

/-- Result of processing one decoded frame inside poll_incoming:
continue the read loop, stop reading (Poll::Ready(None)), or yield the
frame to the caller (Poll::Ready(Some(Ok frame))). -/
inductive IncomingOutcome where
  | cont
  | stopNone
  | yieldFrame (f : AmqpFrame)
deriving DecidableEq, Repr

/-- Mirror of the frame-processing body of Connection::poll_incoming
(connection.rs lines 267-371) for one decoded frame: heartbeat frames
are swallowed; Close is handled on any channel by recording the Closed
error and either completing an in-progress close or echoing Close and
entering RemoteClose; frames after a stored error stop the read; other
frames are routed through the remote-channel map and dispatched by slot
state. -/
def handle_incoming_frame (H : SessionHandlers) (inner : ConnectionInner)
    (frame : AmqpFrame) : ConnectionInner × IncomingOutcome :=
  match frame.performative with
  | Frame.Empty => (inner, IncomingOutcome.cont)
  | Frame.Close e =>
    let inner1 := inner.set_error (AmqpTransportError.Closed e)
    if inner1.state = State.Closing then
      (inner1.set_error AmqpTransportError.Disconnected, IncomingOutcome.stopNone)
    else
      let inner2 := inner1.post_frame (AmqpFrame.new 0 (Frame.Close none))
      ({ inner2 with state := State.RemoteClose }, IncomingOutcome.stopNone)
  | p =>
    if inner.error.isSome then (inner, IncomingOutcome.stopNone)
    else
      match mapGet inner.sessions_map frame.channel_id with
      | none =>
        match p with
        | Frame.Begin b =>
          if b.remote_channel.isSome then
            (inner.complete_session_creation frame.channel_id b, IncomingOutcome.cont)
          else (inner, IncomingOutcome.yieldFrame frame)
        | _ => (inner, IncomingOutcome.cont)
      | some token =>
        match slabGet inner.sessions token with
        | none => (inner, IncomingOutcome.cont)
        | some (ChannelState.Opening _) => (inner, IncomingOutcome.cont)
        | some (ChannelState.Established ses) =>
          match p with
          | Frame.Attach a =>
            let r := H.handle_attach ses a
            let inner1 := { inner with
              sessions := slabSet inner.sessions token (ChannelState.Established r.1) }
            if r.2 then (inner1, IncomingOutcome.cont)
            else (inner1, IncomingOutcome.yieldFrame frame)
          | Frame.Flow _ => (inner, IncomingOutcome.yieldFrame frame)
          | Frame.Detach _ => (inner, IncomingOutcome.yieldFrame frame)
          | Frame.End e =>
            let ses1 := ses.set_error (AmqpTransportError.SessionEnded e)
            let inner1 := { inner with
              sessions := slabSet inner.sessions token (ChannelState.Established ses1) }
            let inner2 := inner1.post_frame
              (AmqpFrame.new (ses1.id % 65536) (Frame.End none))
            match mapGet inner2.sessions_map frame.channel_id with
            | some token2 =>
              ({ inner2 with
                 sessions_map := mapRemove inner2.sessions_map frame.channel_id,
                 sessions := slabRemove inner2.sessions token2 }, IncomingOutcome.cont)
            | none => (inner2, IncomingOutcome.cont)
          | q =>
            let ses1 := H.handle_frame ses q
            ({ inner with
               sessions := slabSet inner.sessions token (ChannelState.Established ses1) },
             IncomingOutcome.cont)
        | some (ChannelState.Closing _) =>
          match p with
          | Frame.End _ =>
            match mapGet inner.sessions_map frame.channel_id with
            | some token2 =>
              ({ inner with
                 sessions_map := mapRemove inner.sessions_map frame.channel_id,
                 sessions := slabRemove inner.sessions token2 }, IncomingOutcome.cont)
            | none => (inner, IncomingOutcome.cont)
          | _ => (inner, IncomingOutcome.cont)

/-- Actions of the heartbeat timer, from src/hb.rs which is outside the
given sources; the three-valued action token follows spec section 2. -/
inductive HeartbeatAction where
  | None
  | Close
  | Heartbeat
deriving DecidableEq, Repr

/-- Mirror of the heartbeat phase of the Future poll of Connection
(connection.rs lines 407-422): on Close set the Timeout error and
return Ready, on Heartbeat push an Empty frame on channel 0, on None do
nothing. The Bool records whether the poll returned Ready immediately. -/
def Connection.poll_hb (inner : ConnectionInner) (act : HeartbeatAction) :
    ConnectionInner × Bool :=
  match act with
  | HeartbeatAction.None => (inner, false)
  | HeartbeatAction.Close => (inner.set_error AmqpTransportError.Timeout, true)
  | HeartbeatAction.Heartbeat =>
    ({ inner with write_queue := inner.write_queue ++ [AmqpFrame.new 0 Frame.Empty] }, false)

/-- Mirror of Connection::close (connection.rs lines 103-106): the body
is future::ok and completes immediately without touching the state. -/
def Connection.close (inner : ConnectionInner) :
    ConnectionInner × Except AmqpTransportError Unit :=
  (inner, Except.ok ())

/-- Mirror of Connection::close_with_error (connection.rs lines
108-115): the error payload is ignored and the body is future::ok. -/
def Connection.close_with_error (inner : ConnectionInner) (_e : ProtocolError) :
    ConnectionInner × Except AmqpTransportError Unit :=
  (inner, Except.ok ())

/-- Mirror of ConnectionController::drop_connection: transition to the
Drop state (the waker wake is a scheduling artifact). -/
def ConnectionController.drop_connection (inner : ConnectionInner) : ConnectionInner :=
  { inner with state := State.Drop }

/-- Outcome of one flush of the framed writer, supplied as an oracle:
pending with k frames accepted so far, or fully flushed. The error
outcome is excluded; it aborts poll_outgoing with Ready(Err). -/
inductive FlushResult where
  | pending (k : Nat)
  | ok
deriving DecidableEq, Repr

/-- Result marker of a poll. -/
inductive PollOut where
  | Ready
  | Pending
deriving DecidableEq, Repr

/-- Mirror of the inner while loop of Connection::poll_outgoing
(connection.rs lines 216-229): while the write buffer is below the high
water mark, pop the next frame and hand it to the framed writer.
Returns the remaining queue, the write buffer, and the frames handed to
the writer this fill, in order. -/
def fill_loop (hw : Nat) : List AmqpFrame → List AmqpFrame →
    List AmqpFrame × List AmqpFrame × List AmqpFrame
  | [], buf => ([], buf, [])
  | f :: rest, buf =>
    if hw ≤ buf.length then (f :: rest, buf, [])
    else
      let r := fill_loop hw rest (buf ++ [f])
      (r.1, r.2.1, f :: r.2.2)

/-- Mirror of the outer loop of Connection::poll_outgoing (connection.rs
lines 215-244): fill the write buffer, then flush; a pending flush (with
k frames drained) breaks the loop, a complete flush empties the buffer
and loops. Returns the remaining queue, the final write buffer, and all
frames handed to the writer, in order. -/
def poll_outgoing_loop (hw : Nat) : List FlushResult → List AmqpFrame → List AmqpFrame →
    List AmqpFrame × List AmqpFrame × List AmqpFrame
  | [], q, buf => fill_loop hw q buf
  | fr :: rest, q, buf =>
    let r := fill_loop hw q buf
    if r.2.1.isEmpty then r
    else
      match fr with
      | FlushResult.pending k => (r.1, r.2.1.drop k, r.2.2)
      | FlushResult.ok =>
        let r2 := poll_outgoing_loop hw rest r.1 []
        (r2.1, r2.2.1, r.2.2 ++ r2.2.2)

/-- Mirror of Connection::poll_outgoing (connection.rs lines 209-256)
on the error-free paths: drain the queue into the framed writer, then
the terminal check of lines 247-255 decides Ready(Ok) versus Pending.
Returns the updated inner state, the final write buffer, and the poll
result. -/
def Connection.poll_outgoing (inner : ConnectionInner) (hw : Nat)
    (flushes : List FlushResult) (buf : List AmqpFrame) :
    ConnectionInner × List AmqpFrame × PollOut :=
  let r := poll_outgoing_loop hw flushes inner.write_queue buf
  let inner1 := { inner with write_queue := r.1 }
  if inner1.state = State.Drop ∨
      (inner1.state = State.RemoteClose ∧ r.1 = [] ∧ r.2.1 = []) then
    (inner1, r.2.1, PollOut.Ready)
  else
    (inner1, r.2.1, PollOut.Pending)

/-- Claimed invariant of the remote-channel map (spec section 3), over
a session table and a map: an entry points to a slot iff the slot is
Established or Closing. -/
def SessionMapInvOn (s : List (Option ChannelState)) (m : List (Nat × Nat)) : Prop :=
  (∀ ch t, mapGet m ch = some t →
     ∃ st, slabGet s t = some st ∧ st.in_map_state = true) ∧
  (∀ t st, slabGet s t = some st → st.in_map_state = true →
     ∃ ch, mapGet m ch = some t)

/-- Auxiliary invariant: no two remote channels point to the same slot. -/
def MapInjOn (m : List (Nat × Nat)) : Prop :=
  ∀ ch ch' t, mapGet m ch = some t → mapGet m ch' = some t → ch = ch'

/-- Invariant over the components. -/
def ConnInvOn (s : List (Option ChannelState)) (m : List (Nat × Nat)) : Prop :=
  SessionMapInvOn s m ∧ MapInjOn m

/-- The connection invariant maintained between driver steps. -/
def ConnInv (inner : ConnectionInner) : Prop :=
  ConnInvOn inner.sessions inner.sessions_map

theorem slabVacantKey_le_length (l : List (Option ChannelState)) :
    slabVacantKey l ≤ l.length := by
  induction l with
  | nil => simp [slabVacantKey]
  | cons x rest ih =>
    cases x with
    | none => simp [slabVacantKey]
    | some v => simpa [slabVacantKey] using Nat.succ_le_succ ih

theorem slabGet_vacantKey (l : List (Option ChannelState)) :
    slabGet l (slabVacantKey l) = none := by
  induction l with
  | nil => rfl
  | cons x rest ih =>
    cases x with
    | none => rfl
    | some v => simpa [slabVacantKey, slabGet] using ih

theorem slabGet_lt_length {l : List (Option ChannelState)} {t : Nat} {st : ChannelState}
    (h : slabGet l t = some st) : t < l.length := by
  induction l generalizing t with
  | nil => simp [slabGet] at h
  | cons x rest ih =>
    cases t with
    | zero => simp
    | succ n =>
      simp only [slabGet] at h
      simpa using Nat.succ_lt_succ (ih h)

theorem slabGet_slabSet_self {l : List (Option ChannelState)} {i : Nat}
    (h : i ≤ l.length) (v : ChannelState) : slabGet (slabSet l i v) i = some v := by
  induction l generalizing i with
  | nil =>
    have : i = 0 := Nat.le_zero.mp h
    subst this
    rfl
  | cons x rest ih =>
    cases i with
    | zero => rfl
    | succ n => exact ih (Nat.succ_le_succ_iff.mp h)

theorem slabGet_slabSet_ne {l : List (Option ChannelState)} {i t : Nat}
    (h : i ≤ l.length) (hne : t ≠ i) (v : ChannelState) :
    slabGet (slabSet l i v) t = slabGet l t := by
  induction l generalizing i t with
  | nil =>
    have : i = 0 := Nat.le_zero.mp h
    subst this
    cases t with
    | zero => exact absurd rfl hne
    | succ n => rfl
  | cons x rest ih =>
    cases i with
    | zero =>
      cases t with
      | zero => exact absurd rfl hne
      | succ n => rfl
    | succ m =>
      cases t with
      | zero => rfl
      | succ n =>
        exact ih (Nat.succ_le_succ_iff.mp h) (fun hc => hne (by simp [hc]))

theorem slabGet_slabRemove_self (l : List (Option ChannelState)) (i : Nat) :
    slabGet (slabRemove l i) i = none := by
  induction l generalizing i with
  | nil => rfl
  | cons x rest ih =>
    cases i with
    | zero => rfl
    | succ n => exact ih n

theorem slabGet_slabRemove_ne {i t : Nat} (l : List (Option ChannelState))
    (hne : t ≠ i) : slabGet (slabRemove l i) t = slabGet l t := by
  induction l generalizing i t with
  | nil => rfl
  | cons x rest ih =>
    cases i with
    | zero =>
      cases t with
      | zero => exact absurd rfl hne
      | succ n => rfl
    | succ m =>
      cases t with
      | zero => rfl
      | succ n => exact ih (fun hc => hne (by simp [hc]))

theorem mapGet_mapRemove_self (m : List (Nat × Nat)) (k : Nat) :
    mapGet (mapRemove m k) k = none := by
  induction m with
  | nil => rfl
  | cons p rest ih =>
    by_cases hp : p.1 = k
    · simpa [mapRemove, hp] using ih
    · simp [mapRemove, hp, mapGet, ih]

theorem mapGet_mapRemove_ne {k k' : Nat} (m : List (Nat × Nat)) (h : k' ≠ k) :
    mapGet (mapRemove m k) k' = mapGet m k' := by
  induction m with
  | nil => rfl
  | cons p rest ih =>
    by_cases hp : p.1 = k
    · simp [mapRemove, hp, mapGet, Ne.symm h, ih]
    · simp [mapRemove, hp, mapGet, ih]

theorem mapGet_mapInsert_self (m : List (Nat × Nat)) (k v : Nat) :
    mapGet (mapInsert m k v) k = some v := by
  simp [mapInsert, mapGet]

theorem mapGet_mapInsert_ne {k k' : Nat} (m : List (Nat × Nat)) (v : Nat) (h : k' ≠ k) :
    mapGet (mapInsert m k v) k' = mapGet m k' := by
  have : k ≠ k' := fun hc => h hc.symm
  simp [mapInsert, mapGet, this, mapGet_mapRemove_ne m h]

theorem conninvOn_nil : ConnInvOn [] [] := by
  refine ⟨⟨fun ch t hm => ?_, fun t st hg _ => ?_⟩, fun ch ch' t hm _ => ?_⟩
  · exact absurd hm (by simp [mapGet])
  · exact absurd hg (by simp [slabGet])
  · exact absurd hm (by simp [mapGet])

theorem conninvOn_pointwise {s1 s2 : List (Option ChannelState)}
    {m1 m2 : List (Nat × Nat)} (h : ConnInvOn s2 m2)
    (hs : ∀ t, slabGet s1 t = slabGet s2 t)
    (hm : ∀ c, mapGet m1 c = mapGet m2 c) : ConnInvOn s1 m1 := by
  obtain ⟨⟨h1, h2⟩, hinj⟩ := h
  refine ⟨⟨fun ch t hmap => ?_, fun t st hget hst => ?_⟩, fun ch ch' t hma hmb => ?_⟩
  · rw [hm ch] at hmap
    obtain ⟨st, hget, hst⟩ := h1 ch t hmap
    exact ⟨st, by rw [hs t]; exact hget, hst⟩
  · rw [hs t] at hget
    obtain ⟨ch, hmap⟩ := h2 t st hget hst
    exact ⟨ch, by rw [hm ch]; exact hmap⟩
  · rw [hm ch] at hma
    rw [hm ch'] at hmb
    exact hinj ch ch' t hma hmb

theorem conninvOn_insert_vacant_not_mapped {s : List (Option ChannelState)}
    {m : List (Nat × Nat)} (h : ConnInvOn s m) {v : ChannelState}
    (hv : v.in_map_state = false) :
    ConnInvOn (slabSet s (slabVacantKey s) v) m := by
  obtain ⟨⟨h1, h2⟩, hinj⟩ := h
  have hle := slabVacantKey_le_length s
  refine ⟨⟨fun ch t hmap => ?_, fun t st hget hst => ?_⟩, hinj⟩
  · obtain ⟨st, hget, hst⟩ := h1 ch t hmap
    have hne : t ≠ slabVacantKey s := by
      intro heq
      rw [heq, slabGet_vacantKey] at hget
      exact Option.noConfusion hget
    rw [slabGet_slabSet_ne hle hne]
    exact ⟨st, hget, hst⟩
  · by_cases heq : t = slabVacantKey s
    · subst heq
      rw [slabGet_slabSet_self hle] at hget
      have : st = v := (Option.some.inj hget).symm
      rw [this, hv] at hst
      exact absurd hst (by simp)
    · rw [slabGet_slabSet_ne hle heq] at hget
      exact h2 t st hget hst

theorem conninvOn_insert_established {s : List (Option ChannelState)}
    {m : List (Nat × Nat)} {ch : Nat} (h : ConnInvOn s m)
    (hch : mapGet m ch = none) (ses : SessionInner) :
    ConnInvOn (slabSet s (slabVacantKey s) (ChannelState.Established ses))
      (mapInsert m ch (slabVacantKey s)) := by
  obtain ⟨⟨h1, h2⟩, hinj⟩ := h
  have hle := slabVacantKey_le_length s
  have hvac := slabGet_vacantKey s
  have hnotmapped : ∀ c, mapGet m c ≠ some (slabVacantKey s) := by
    intro c hc
    obtain ⟨st, hget, _⟩ := h1 c _ hc
    rw [hvac] at hget
    exact Option.noConfusion hget
  refine ⟨⟨fun c t hmap => ?_, fun t st hget hst => ?_⟩, fun c c' t hma hmb => ?_⟩
  · by_cases hc : c = ch
    · subst hc
      rw [mapGet_mapInsert_self] at hmap
      have ht : t = slabVacantKey s := (Option.some.inj hmap).symm
      subst ht
      exact ⟨_, slabGet_slabSet_self hle _, rfl⟩
    · rw [mapGet_mapInsert_ne m _ hc] at hmap
      obtain ⟨st, hget, hst⟩ := h1 c t hmap
      have hne : t ≠ slabVacantKey s := by
        intro heq
        rw [heq, hvac] at hget
        exact Option.noConfusion hget
      rw [slabGet_slabSet_ne hle hne]
      exact ⟨st, hget, hst⟩
  · by_cases heq : t = slabVacantKey s
    · subst heq
      exact ⟨ch, mapGet_mapInsert_self m ch _⟩
    · rw [slabGet_slabSet_ne hle heq] at hget
      obtain ⟨c, hmap⟩ := h2 t st hget hst
      have hc : c ≠ ch := by
        intro hcc
        rw [hcc, hch] at hmap
        exact Option.noConfusion hmap
      exact ⟨c, by rw [mapGet_mapInsert_ne m _ hc]; exact hmap⟩
  · by_cases hca : c = ch <;> by_cases hcb : c' = ch
    · rw [hca, hcb]
    · subst hca
      rw [mapGet_mapInsert_self] at hma
      rw [mapGet_mapInsert_ne m _ hcb] at hmb
      have ht : t = slabVacantKey s := (Option.some.inj hma).symm
      subst ht
      exact absurd hmb (hnotmapped c')
    · subst hcb
      rw [mapGet_mapInsert_self] at hmb
      rw [mapGet_mapInsert_ne m _ hca] at hma
      have ht : t = slabVacantKey s := (Option.some.inj hmb).symm
      subst ht
      exact absurd hma (hnotmapped c)
    · rw [mapGet_mapInsert_ne m _ hca] at hma
      rw [mapGet_mapInsert_ne m _ hcb] at hmb
      exact hinj c c' t hma hmb

theorem conninvOn_complete {s : List (Option ChannelState)} {m : List (Nat × Nat)}
    {ch id : Nat} {w : Bool} (h : ConnInvOn s m) (hch : mapGet m ch = none)
    (hid : slabGet s id = some (ChannelState.Opening w)) (ses : SessionInner) :
    ConnInvOn (slabSet s id (ChannelState.Established ses)) (mapInsert m ch id) := by
  obtain ⟨⟨h1, h2⟩, hinj⟩ := h
  have hle : id ≤ s.length := Nat.le_of_lt (slabGet_lt_length hid)
  have hnotmapped : ∀ c, mapGet m c ≠ some id := by
    intro c hc
    obtain ⟨st, hget, hst⟩ := h1 c _ hc
    rw [hid] at hget
    have : st = ChannelState.Opening w := (Option.some.inj hget).symm
    rw [this] at hst
    exact absurd hst (by simp [ChannelState.in_map_state])
  refine ⟨⟨fun c t hmap => ?_, fun t st hget hst => ?_⟩, fun c c' t hma hmb => ?_⟩
  · by_cases hc : c = ch
    · subst hc
      rw [mapGet_mapInsert_self] at hmap
      have ht : t = id := (Option.some.inj hmap).symm
      subst ht
      exact ⟨_, slabGet_slabSet_self hle _, rfl⟩
    · rw [mapGet_mapInsert_ne m _ hc] at hmap
      obtain ⟨st, hget, hst⟩ := h1 c t hmap
      have hne : t ≠ id := by
        intro heq
        exact absurd hmap (by rw [heq]; exact hnotmapped c)
      rw [slabGet_slabSet_ne hle hne]
      exact ⟨st, hget, hst⟩
  · by_cases heq : t = id
    · subst heq
      exact ⟨ch, mapGet_mapInsert_self m ch _⟩
    · rw [slabGet_slabSet_ne hle heq] at hget
      obtain ⟨c, hmap⟩ := h2 t st hget hst
      have hc : c ≠ ch := by
        intro hcc
        rw [hcc, hch] at hmap
        exact Option.noConfusion hmap
      exact ⟨c, by rw [mapGet_mapInsert_ne m _ hc]; exact hmap⟩
  · by_cases hca : c = ch <;> by_cases hcb : c' = ch
    · rw [hca, hcb]
    · subst hca
      rw [mapGet_mapInsert_self] at hma
      rw [mapGet_mapInsert_ne m _ hcb] at hmb
      have ht : t = id := (Option.some.inj hma).symm
      subst ht
      exact absurd hmb (hnotmapped c')
    · subst hcb
      rw [mapGet_mapInsert_self] at hmb
      rw [mapGet_mapInsert_ne m _ hca] at hma
      have ht : t = id := (Option.some.inj hmb).symm
      subst ht
      exact absurd hma (hnotmapped c)
    · rw [mapGet_mapInsert_ne m _ hca] at hma
      rw [mapGet_mapInsert_ne m _ hcb] at hmb
      exact hinj c c' t hma hmb

theorem conninvOn_replace {s : List (Option ChannelState)} {m : List (Nat × Nat)}
    {token : Nat} {ses : SessionInner} (h : ConnInvOn s m)
    (htok : slabGet s token = some (ChannelState.Established ses)) (ses' : SessionInner) :
    ConnInvOn (slabSet s token (ChannelState.Established ses')) m := by
  obtain ⟨⟨h1, h2⟩, hinj⟩ := h
  have hle : token ≤ s.length := Nat.le_of_lt (slabGet_lt_length htok)
  refine ⟨⟨fun c t hmap => ?_, fun t st hget hst => ?_⟩, hinj⟩
  · by_cases heq : t = token
    · subst heq
      exact ⟨_, slabGet_slabSet_self hle _, rfl⟩
    · obtain ⟨st, hget, hst⟩ := h1 c t hmap
      rw [slabGet_slabSet_ne hle heq]
      exact ⟨st, hget, hst⟩
  · by_cases heq : t = token
    · subst heq
      exact h2 t _ htok rfl
    · rw [slabGet_slabSet_ne hle heq] at hget
      exact h2 t st hget hst

theorem conninvOn_remove {s : List (Option ChannelState)} {m : List (Nat × Nat)}
    {ch token : Nat} (h : ConnInvOn s m) (hch : mapGet m ch = some token) :
    ConnInvOn (slabRemove s token) (mapRemove m ch) := by
  obtain ⟨⟨h1, h2⟩, hinj⟩ := h
  refine ⟨⟨fun c t hmap => ?_, fun t st hget hst => ?_⟩, fun c c' t hma hmb => ?_⟩
  · have hc : c ≠ ch := by
      intro hcc
      rw [hcc, mapGet_mapRemove_self] at hmap
      exact Option.noConfusion hmap
    rw [mapGet_mapRemove_ne m hc] at hmap
    obtain ⟨st, hget, hst⟩ := h1 c t hmap
    have hne : t ≠ token := by
      intro heq
      subst heq
      exact hc (hinj c ch t hmap hch)
    rw [slabGet_slabRemove_ne s hne]
    exact ⟨st, hget, hst⟩
  · have hne : t ≠ token := by
      intro heq
      rw [heq, slabGet_slabRemove_self] at hget
      exact Option.noConfusion hget
    rw [slabGet_slabRemove_ne s hne] at hget
    obtain ⟨c, hmap⟩ := h2 t st hget hst
    have hc : c ≠ ch := by
      intro hcc
      rw [hcc, hch] at hmap
      exact hne (Option.some.inj hmap).symm
    exact ⟨c, by rw [mapGet_mapRemove_ne m hc]; exact hmap⟩
  · have hca : c ≠ ch := by
      intro hcc
      rw [hcc, mapGet_mapRemove_self] at hma
      exact Option.noConfusion hma
    have hcb : c' ≠ ch := by
      intro hcc
      rw [hcc, mapGet_mapRemove_self] at hmb
      exact Option.noConfusion hmb
    rw [mapGet_mapRemove_ne m hca] at hma
    rw [mapGet_mapRemove_ne m hcb] at hmb
    exact hinj c c' t hma hmb

theorem conninv_set_error (inner : ConnectionInner) (err : AmqpTransportError) :
    ConnInv (inner.set_error err) :=
  conninvOn_nil

theorem conninv_open_session {inner : ConnectionInner} (h : ConnInv inner) :
    ConnInv (Connection.open_session inner).1 := by
  unfold Connection.open_session
  rcases he : inner.error with _ | e
  · dsimp only
    split
    · exact h
    · exact conninvOn_insert_vacant_not_mapped h rfl
  · exact h

theorem conninv_register {inner : ConnectionInner} {ch : Nat} (b : Begin)
    (h : ConnInv inner) (hch : mapGet inner.sessions_map ch = none) :
    ConnInv (Connection.register_remote_session inner ch b) :=
  conninvOn_insert_established h hch _

theorem conninv_complete_op {inner : ConnectionInner} {ch : Nat} (b : Begin)
    (h : ConnInv inner) (hch : mapGet inner.sessions_map ch = none) :
    ConnInv (inner.complete_session_creation ch b) := by
  unfold ConnectionInner.complete_session_creation
  rcases hb : b.remote_channel with _ | id
  · exact h
  · dsimp only
    rcases hs : slabGet inner.sessions id with _ | st
    · exact h
    · cases st with
      | Opening w => exact conninvOn_complete h hch hs _
      | Established ses => exact h
      | Closing w => exact h

theorem conninv_handle_incoming (H : SessionHandlers) {inner : ConnectionInner}
    (f : AmqpFrame) (h : ConnInv inner) :
    ConnInv (handle_incoming_frame H inner f).1 := by
  obtain ⟨chid, p⟩ := f
  cases p with
  | Empty => exact h
  | Close e =>
    simp only [handle_incoming_frame]
    split
    · exact conninvOn_nil
    · exact conninvOn_nil
  | Open =>
    simp only [handle_incoming_frame]
    split
    · exact h
    split
    · exact h
    split
    · exact h
    · exact h
    · next ses hs => exact conninvOn_replace h hs _
    · exact h
  | Begin b =>
    simp only [handle_incoming_frame]
    split
    · exact h
    split
    · next hm =>
      split
      · exact conninv_complete_op b h hm
      · exact h
    · split
      · exact h
      · exact h
      · next ses hs => exact conninvOn_replace h hs _
      · exact h
  | Attach a =>
    simp only [handle_incoming_frame]
    split
    · exact h
    split
    · exact h
    split
    · exact h
    · exact h
    · next ses hs =>
      split
      · exact conninvOn_replace h hs _
      · exact conninvOn_replace h hs _
    · exact h
  | Flow x =>
    simp only [handle_incoming_frame]
    split
    · exact h
    split
    · exact h
    split <;> exact h
  | Transfer x =>
    simp only [handle_incoming_frame]
    split
    · exact h
    split
    · exact h
    split
    · exact h
    · exact h
    · next ses hs => exact conninvOn_replace h hs _
    · exact h
  | Disposition x =>
    simp only [handle_incoming_frame]
    split
    · exact h
    split
    · exact h
    split
    · exact h
    · exact h
    · next ses hs => exact conninvOn_replace h hs _
    · exact h
  | Detach x =>
    simp only [handle_incoming_frame]
    split
    · exact h
    split
    · exact h
    split <;> exact h
  | End e =>
    simp only [handle_incoming_frame]
    split
    · exact h
    split
    · exact h
    · next token hm =>
      split
      · exact h
      · exact h
      · next ses hs =>
        dsimp only [ConnectionInner.post_frame]
        rw [hm]
        refine conninvOn_pointwise (conninvOn_remove h hm) (fun t => ?_) (fun c => rfl)
        by_cases heq : t = token
        · subst heq
          rw [slabGet_slabRemove_self, slabGet_slabRemove_self]
        · rw [slabGet_slabRemove_ne _ heq, slabGet_slabRemove_ne _ heq,
            slabGet_slabSet_ne (Nat.le_of_lt (slabGet_lt_length hs)) heq]
      · next w hs =>
        rw [hm]
        exact conninvOn_remove h hm

theorem slabGet_mem {l : List (Option ChannelState)} {t : Nat} {st : ChannelState}
    (h : slabGet l t = some st) : some st ∈ l := by
  induction l generalizing t with
  | nil => exact absurd h (by simp [slabGet])
  | cons x rest ih =>
    cases t with
    | zero => rw [show x = some st from h]; exact List.mem_cons_self _ _
    | succ n => exact List.mem_cons_of_mem _ (ih h)

theorem post_frames_queue (inner : ConnectionInner) (fs : List AmqpFrame) :
    (inner.post_frames fs).write_queue = inner.write_queue ++ fs := by
  induction fs generalizing inner with
  | nil => simp [ConnectionInner.post_frames]
  | cons f rest ih =>
    simp [ConnectionInner.post_frames, ih, ConnectionInner.post_frame]

theorem fill_loop_spec (hw : Nat) (q buf : List AmqpFrame) :
    ∃ k, fill_loop hw q buf = (q.drop k, buf ++ q.take k, q.take k) := by
  induction q generalizing buf with
  | nil => exact ⟨0, by simp [fill_loop]⟩
  | cons f rest ih =>
    by_cases hc : hw ≤ buf.length
    · exact ⟨0, by simp [fill_loop, hc]⟩
    · obtain ⟨k, hk⟩ := ih (buf ++ [f])
      refine ⟨k + 1, ?_⟩
      simp [fill_loop, hc, hk]

theorem poll_outgoing_loop_spec (hw : Nat) (flushes : List FlushResult)
    (q buf : List AmqpFrame) :
    ∃ k b, poll_outgoing_loop hw flushes q buf = (q.drop k, b, q.take k) := by
  induction flushes generalizing q buf with
  | nil =>
    obtain ⟨k, hk⟩ := fill_loop_spec hw q buf
    exact ⟨k, buf ++ q.take k, by simpa [poll_outgoing_loop] using hk⟩
  | cons fr rest ih =>
    obtain ⟨k1, hk1⟩ := fill_loop_spec hw q buf
    by_cases hb : (buf ++ q.take k1).isEmpty
    · exact ⟨k1, buf ++ q.take k1, by simp [poll_outgoing_loop, hk1, hb]⟩
    · cases fr with
      | pending k =>
        exact ⟨k1, (buf ++ q.take k1).drop k, by simp [poll_outgoing_loop, hk1, hb]⟩
      | ok =>
        obtain ⟨k2, b2, hk2⟩ := ih (q.drop k1) []
        refine ⟨k1 + k2, b2, ?_⟩
        simp [poll_outgoing_loop, hk1, hb, hk2, List.drop_drop,
          Nat.add_comm k2 k1, ← List.take_add]

/-- C1: open_session fails with the stored error when the connection
error slot is set, and otherwise fails with TooManyChannels when the
allocated slot token reaches channel_max; in both failure cases the
whole inner state, in particular the session table and the outgoing
queue, is left unchanged and no Begin frame is enqueued. -/
theorem open_session_error_paths (inner : ConnectionInner) :
    (∀ e, inner.error = some e →
      Connection.open_session inner = (inner, OpenSessionOutcome.failed e)) ∧
    (inner.error = none →
      inner.local_config.channel_max ≤ slabVacantKey inner.sessions →
      Connection.open_session inner =
        (inner, OpenSessionOutcome.failed AmqpTransportError.TooManyChannels)) := by
  constructor
  · intro e he
    simp [Connection.open_session, he]
  · intro he hc
    simp [Connection.open_session, he, ge_iff_le, hc]

/-- Witness for C1: a connection whose error slot holds Disconnected
fails with Disconnected, and a fresh connection with channel_max zero
fails with TooManyChannels, leaving the state untouched. -/
theorem open_session_error_paths_witness :
    Connection.open_session
        ⟨⟨4, 0⟩, ⟨4, 0⟩, [], [], [], some AmqpTransportError.Disconnected, State.Normal⟩ =
      (⟨⟨4, 0⟩, ⟨4, 0⟩, [], [], [], some AmqpTransportError.Disconnected, State.Normal⟩,
       OpenSessionOutcome.failed AmqpTransportError.Disconnected) ∧
    Connection.open_session ⟨⟨0, 0⟩, ⟨0, 0⟩, [], [], [], none, State.Normal⟩ =
      (⟨⟨0, 0⟩, ⟨0, 0⟩, [], [], [], none, State.Normal⟩,
       OpenSessionOutcome.failed AmqpTransportError.TooManyChannels) :=
  ⟨(open_session_error_paths _).1 _ rfl,
   (open_session_error_paths _).2 rfl (by decide)⟩

/-- C6: on each scheduling step the driver first consults the heartbeat
timer; on Close it sets the Timeout error and returns Ready, on
Heartbeat it enqueues an Empty frame on channel 0 and continues, on
None it proceeds with the state unmodified. -/
theorem heartbeat_phase_behavior (inner : ConnectionInner) :
    (Connection.poll_hb inner HeartbeatAction.Close).1.error =
        some AmqpTransportError.Timeout ∧
    (Connection.poll_hb inner HeartbeatAction.Close).2 = true ∧
    (Connection.poll_hb inner HeartbeatAction.Heartbeat).1.write_queue =
        inner.write_queue ++ [AmqpFrame.new 0 Frame.Empty] ∧
    (Connection.poll_hb inner HeartbeatAction.Heartbeat).1.sessions = inner.sessions ∧
    (Connection.poll_hb inner HeartbeatAction.Heartbeat).1.sessions_map =
        inner.sessions_map ∧
    (Connection.poll_hb inner HeartbeatAction.Heartbeat).1.error = inner.error ∧
    (Connection.poll_hb inner HeartbeatAction.Heartbeat).1.state = inner.state ∧
    (Connection.poll_hb inner HeartbeatAction.Heartbeat).2 = false ∧
    Connection.poll_hb inner HeartbeatAction.None = (inner, false) :=
  ⟨rfl, rfl, rfl, rfl, rfl, rfl, rfl, rfl, rfl⟩

/-- C7: the claim requires close to complete only after the Close/Close
exchange and to fail with the stored error on a terminal connection;
the source bodies of close and close_with_error are future::ok stubs
(marked TODO), so even on a terminal connection both complete
immediately with Ok and enqueue no Close frame. -/
theorem close_is_stubbed (inner : ConnectionInner) (e : AmqpTransportError)
    (perr : ProtocolError) :
    inner.error = some e →
    Connection.close inner = (inner, Except.ok ()) ∧
    (Connection.close inner).1.write_queue = inner.write_queue ∧
    Connection.close_with_error inner perr = (inner, Except.ok ()) :=
  fun _ => ⟨rfl, rfl, rfl⟩

/-- Witness for C7: a connection whose error slot holds Disconnected
still completes close and close_with_error with Ok, enqueuing nothing. -/
theorem close_is_stubbed_witness :
    Connection.close
        ⟨⟨4, 0⟩, ⟨4, 0⟩, [], [], [], some AmqpTransportError.Disconnected, State.Normal⟩ =
      (⟨⟨4, 0⟩, ⟨4, 0⟩, [], [], [], some AmqpTransportError.Disconnected, State.Normal⟩,
       Except.ok ()) ∧
    (Connection.close
        ⟨⟨4, 0⟩, ⟨4, 0⟩, [], [], [], some AmqpTransportError.Disconnected,
         State.Normal⟩).1.write_queue = [] ∧
    Connection.close_with_error
        ⟨⟨4, 0⟩, ⟨4, 0⟩, [], [], [], some AmqpTransportError.Disconnected, State.Normal⟩
        ⟨1, none⟩ =
      (⟨⟨4, 0⟩, ⟨4, 0⟩, [], [], [], some AmqpTransportError.Disconnected, State.Normal⟩,
       Except.ok ()) :=
  close_is_stubbed _ AmqpTransportError.Disconnected ⟨1, none⟩ rfl

/-- C5: the outgoing queue is strictly FIFO. Frames posted by
post_frame are appended in order, and the outgoing drain hands frames
to the framed writer exactly as a prefix of the queue in enqueue order,
leaving the corresponding suffix; no reordering or prioritization
occurs. -/
theorem write_queue_fifo_order (inner : ConnectionInner) (fs : List AmqpFrame)
    (hw : Nat) (flushes : List FlushResult) :
    (inner.post_frames fs).write_queue = inner.write_queue ++ fs ∧
    ∃ k b,
      poll_outgoing_loop hw flushes (inner.post_frames fs).write_queue [] =
        ((inner.write_queue ++ fs).drop k, b, (inner.write_queue ++ fs).take k) := by
  refine ⟨post_frames_queue inner fs, ?_⟩
  rw [post_frames_queue inner fs]
  exact poll_outgoing_loop_spec hw flushes _ []

/-- C8: the outgoing-drain poll returns Ready exactly when the
connection state is Drop, or the state is RemoteClose and both the
post-drain write queue and the framed write buffer are empty; in every
other error-free case it returns Pending. -/
theorem poll_outgoing_terminal_check (inner : ConnectionInner) (hw : Nat)
    (flushes : List FlushResult) (buf : List AmqpFrame) :
    (Connection.poll_outgoing inner hw flushes buf).2.2 = PollOut.Ready ↔
      ((Connection.poll_outgoing inner hw flushes buf).1.state = State.Drop ∨
       ((Connection.poll_outgoing inner hw flushes buf).1.state = State.RemoteClose ∧
        (Connection.poll_outgoing inner hw flushes buf).1.write_queue = [] ∧
        (Connection.poll_outgoing inner hw flushes buf).2.1 = [])) := by
  unfold Connection.poll_outgoing
  dsimp only
  split
  · next hcond => simpa using hcond
  · next hcond => simpa using hcond

/-- C9: the claim requires that when a peer Begin pairs an Opening slot
whose waiter has been dropped, the driver immediately sends an End
frame; in the source the failed send is ignored (todo comment) and the
slot is still transitioned to Established, so on a concrete pairing of
an Opening slot with a dead waiter the outgoing queue stays empty and
no End frame is emitted. -/
theorem dropped_waiter_no_end_sent :
    (ConnectionInner.complete_session_creation
        ⟨⟨4, 0⟩, ⟨4, 0⟩, [], [some (ChannelState.Opening false)], [], none, State.Normal⟩
        9 ⟨some 0, 1, 5, 6, 7⟩).write_queue = [] ∧
    (ConnectionInner.complete_session_creation
        ⟨⟨4, 0⟩, ⟨4, 0⟩, [], [some (ChannelState.Opening false)], [], none, State.Normal⟩
        9 ⟨some 0, 1, 5, 6, 7⟩).sessions =
      [some (ChannelState.Established ⟨0, true, 9, 1, 5, 6, none⟩)] :=
  ⟨rfl, rfl⟩

/-- C10: an incoming Begin whose remote_channel points at a slot that
is absent or not in Opening state leaves the connection state entirely
unchanged: no session is created, no map entry is added, no frame is
enqueued, no error is set, and the read loop just continues. -/
theorem rogue_begin_no_effect (H : SessionHandlers) (inner : ConnectionInner)
    (ch : Nat) (b : Begin) (id : Nat) :
    inner.error = none →
    b.remote_channel = some id →
    mapGet inner.sessions_map ch = none →
    (∀ w, slabGet inner.sessions id ≠ some (ChannelState.Opening w)) →
    handle_incoming_frame H inner (AmqpFrame.new ch (Frame.Begin b)) =
      (inner, IncomingOutcome.cont) := by
  intro herr hb hm hno
  have hcomplete : inner.complete_session_creation ch b = inner := by
    unfold ConnectionInner.complete_session_creation
    split
    · rfl
    · next id2 hb2 =>
      have hid : id2 = id := by
        rw [hb] at hb2
        exact (Option.some.inj hb2).symm
      subst hid
      split
      · next w hs => exact absurd hs (hno w)
      · rfl
      · rfl
  simp [handle_incoming_frame, AmqpFrame.new, herr, hm, hb, hcomplete]

/-- Witness for C10: a Begin carrying remote_channel 0 arriving for a
connection whose slot 0 is Established and whose map does not know the
incoming channel leaves the state unchanged. -/
theorem rogue_begin_no_effect_witness :
    handle_incoming_frame idHandlers
        ⟨⟨4, 0⟩, ⟨4, 0⟩, [], [some (ChannelState.Established ⟨0, true, 7, 1, 5, 6, none⟩)],
         [(7, 0)], none, State.Normal⟩
        (AmqpFrame.new 3 (Frame.Begin ⟨some 0, 1, 5, 6, 7⟩)) =
      (⟨⟨4, 0⟩, ⟨4, 0⟩, [], [some (ChannelState.Established ⟨0, true, 7, 1, 5, 6, none⟩)],
        [(7, 0)], none, State.Normal⟩, IncomingOutcome.cont) :=
  rogue_begin_no_effect idHandlers _ 3 ⟨some 0, 1, 5, 6, 7⟩ 0 rfl rfl (by decide)
    (by decide)

/-- Counterexample for C2: when the connection state is Closing, the
handling of an incoming Close leaves the error slot holding
Disconnected, not Closed(peer_error) as the claim states: the second
set_error call overwrites the Closed error recorded first. -/
theorem close_in_closing_final_error :
    (handle_incoming_frame idHandlers
        ⟨⟨4, 0⟩, ⟨4, 0⟩, [], [], [], none, State.Closing⟩
        (AmqpFrame.new 0 (Frame.Close (some ⟨1, none⟩)))).1.error =
      some AmqpTransportError.Disconnected ∧
    some AmqpTransportError.Disconnected ≠
      some (AmqpTransportError.Closed (some ⟨1, none⟩)) :=
  ⟨rfl, by decide⟩

/-- C2 (amended): when the driver receives a Close performative on
channel 0 it records the error Closed(peer_error); if the connection
state was Closing it completes the close, overwriting the error slot
with Disconnected; otherwise it enqueues a Close echo with no error,
transitions the state to RemoteClose and the error slot holds
Closed(peer_error). In both cases the session table and the map are
cleared and the read loop stops for this step. -/
theorem close_frame_handling (H : SessionHandlers) (inner : ConnectionInner)
    (e : Option ProtocolError) :
    (inner.state ≠ State.Closing →
      handle_incoming_frame H inner (AmqpFrame.new 0 (Frame.Close e)) =
        ({ inner with
             sessions := [], sessions_map := [],
             error := some (AmqpTransportError.Closed e),
             write_queue := inner.write_queue ++ [AmqpFrame.new 0 (Frame.Close none)],
             state := State.RemoteClose }, IncomingOutcome.stopNone)) ∧
    (inner.state = State.Closing →
      handle_incoming_frame H inner (AmqpFrame.new 0 (Frame.Close e)) =
        ({ inner with
             sessions := [], sessions_map := [],
             error := some AmqpTransportError.Disconnected },
         IncomingOutcome.stopNone)) := by
  constructor
  · intro hstate
    simp [handle_incoming_frame, AmqpFrame.new, ConnectionInner.set_error,
      ConnectionInner.post_frame, hstate]
  · intro hstate
    simp [handle_incoming_frame, AmqpFrame.new, ConnectionInner.set_error,
      ConnectionInner.post_frame, hstate]

/-- Witness for C2 (amended): both branches evaluated on a concrete
connection, in Normal state and in Closing state. -/
theorem close_frame_handling_witness :
    handle_incoming_frame idHandlers
        ⟨⟨4, 0⟩, ⟨4, 0⟩, [], [], [], none, State.Normal⟩
        (AmqpFrame.new 0 (Frame.Close (some ⟨1, none⟩))) =
      (⟨⟨4, 0⟩, ⟨4, 0⟩, [AmqpFrame.new 0 (Frame.Close none)], [], [],
        some (AmqpTransportError.Closed (some ⟨1, none⟩)), State.RemoteClose⟩,
       IncomingOutcome.stopNone) ∧
    handle_incoming_frame idHandlers
        ⟨⟨4, 0⟩, ⟨4, 0⟩, [], [], [], none, State.Closing⟩
        (AmqpFrame.new 0 (Frame.Close (some ⟨1, none⟩))) =
      (⟨⟨4, 0⟩, ⟨4, 0⟩, [], [], [], some AmqpTransportError.Disconnected,
        State.Closing⟩, IncomingOutcome.stopNone) :=
  ⟨(close_frame_handling idHandlers _ (some ⟨1, none⟩)).1 (by decide),
   (close_frame_handling idHandlers _ (some ⟨1, none⟩)).2 rfl⟩

/-- Counterexample for C4: recording the transport error Disconnected
on a connection with one Established session errors that session with
Disconnected itself, not with SessionEnded(None) as the claim states. -/
theorem set_error_sessions_not_sessionEnded :
    slabGet
        (⟨⟨4, 0⟩, ⟨4, 0⟩, [], [some (ChannelState.Established ⟨0, true, 0, 1, 10, 10, none⟩)],
          [(0, 0)], none, State.Normal⟩ : ConnectionInner).sessions 0 =
      some (ChannelState.Established ⟨0, true, 0, 1, 10, 10, none⟩) ∧
    ∃ s ∈ ConnectionInner.set_error_sessions
        ⟨⟨4, 0⟩, ⟨4, 0⟩, [], [some (ChannelState.Established ⟨0, true, 0, 1, 10, 10, none⟩)],
         [(0, 0)], none, State.Normal⟩ AmqpTransportError.Disconnected,
      s.error ≠ some (AmqpTransportError.SessionEnded none) := by
  decide

/-- C4 (amended): whenever a connection-level transport error or a
connection drop is recorded through set_error, every session in
Established state is errored with that recorded transport error itself,
and both the session slot array and the remote-channel map are cleared
while the connection error slot takes the error. -/
theorem set_error_clears_and_errors_sessions (inner : ConnectionInner)
    (err : AmqpTransportError) :
    (inner.set_error err).sessions = [] ∧
    (inner.set_error err).sessions_map = [] ∧
    (inner.set_error err).error = some err ∧
    (∀ s ∈ inner.set_error_sessions err, s.error = some err) ∧
    (∀ t ses, slabGet inner.sessions t = some (ChannelState.Established ses) →
       ses.set_error err ∈ inner.set_error_sessions err) := by
  refine ⟨rfl, rfl, rfl, ?_, ?_⟩
  · intro s hs
    simp only [ConnectionInner.set_error_sessions, List.mem_filterMap] at hs
    obtain ⟨ch, _, hch⟩ := hs
    rcases ch with _ | st
    · exact absurd hch (by simp)
    · rcases st with w | ses | w
      · exact absurd hch (by simp)
      · rw [← Option.some.inj hch]
        rfl
      · exact absurd hch (by simp)
  · intro t ses hget
    exact List.mem_filterMap.mpr ⟨some (ChannelState.Established ses), slabGet_mem hget, rfl⟩

/-- Witness for C4 (amended): on a connection with one Established
session, recording Disconnected produces that session errored with
Disconnected among the observed session values. -/
theorem set_error_clears_and_errors_sessions_witness :
    (⟨0, true, 0, 1, 10, 10, none⟩ : SessionInner).set_error
        AmqpTransportError.Disconnected ∈
      ConnectionInner.set_error_sessions
        ⟨⟨4, 0⟩, ⟨4, 0⟩, [], [some (ChannelState.Established ⟨0, true, 0, 1, 10, 10, none⟩)],
         [(0, 0)], none, State.Normal⟩ AmqpTransportError.Disconnected :=
  (set_error_clears_and_errors_sessions _ AmqpTransportError.Disconnected).2.2.2.2 0
    ⟨0, true, 0, 1, 10, 10, none⟩ rfl

/-- C3: between driver steps the remote-channel map contains an entry
pointing to a slot iff that slot is in Established or Closing state,
and an Opening slot is never reachable through the map. The invariant
(together with the injectivity of the map needed to maintain it) holds
for a fresh connection and is preserved by every state mutator of the
connection driver: open_session, register_remote_session on a fresh
remote channel, the incoming-frame dispatch, the heartbeat phase, the
outgoing drain, set_error, and drop_connection. -/
theorem sessions_map_invariant :
    (∀ lc rc, ConnInv (ConnectionInner.new lc rc)) ∧
    (∀ inner, ConnInv inner → ConnInv (Connection.open_session inner).1) ∧
    (∀ inner ch b, ConnInv inner → mapGet inner.sessions_map ch = none →
      ConnInv (Connection.register_remote_session inner ch b)) ∧
    (∀ H inner f, ConnInv inner → ConnInv (handle_incoming_frame H inner f).1) ∧
    (∀ inner act, ConnInv inner → ConnInv (Connection.poll_hb inner act).1) ∧
    (∀ inner hw flushes buf, ConnInv inner →
      ConnInv (Connection.poll_outgoing inner hw flushes buf).1) ∧
    (∀ inner err, ConnInv inner → ConnInv (inner.set_error err)) ∧
    (∀ inner, ConnInv inner → ConnInv (ConnectionController.drop_connection inner)) ∧
    (∀ inner ch t, ConnInv inner → mapGet inner.sessions_map ch = some t →
      ∃ st, slabGet inner.sessions t = some st ∧ st.in_map_state = true) ∧
    (∀ inner t st, ConnInv inner → slabGet inner.sessions t = some st →
      st.in_map_state = true → ∃ ch, mapGet inner.sessions_map ch = some t) ∧
    (∀ inner ch t w, ConnInv inner → mapGet inner.sessions_map ch = some t →
      slabGet inner.sessions t ≠ some (ChannelState.Opening w)) := by
  refine ⟨fun lc rc => conninvOn_nil,
    fun inner h => conninv_open_session h,
    fun inner ch b h hm => conninv_register b h hm,
    fun H inner f h => conninv_handle_incoming H f h,
    fun inner act h => ?_,
    fun inner hw flushes buf h => ?_,
    fun inner err h => conninv_set_error inner err,
    fun inner h => h,
    fun inner ch t h hm => h.1.1 ch t hm,
    fun inner t st h hg hst => h.1.2 t st hg hst,
    fun inner ch t w h hm hcontra => ?_⟩
  · cases act with
    | None => exact h
    | Close => exact conninvOn_nil
    | Heartbeat => exact h
  · unfold Connection.poll_outgoing
    dsimp only
    split
    · exact h
    · exact h
  · obtain ⟨st, hget, hst⟩ := h.1.1 ch t hm
    rw [hcontra] at hget
    rw [(Option.some.inj hget).symm] at hst
    exact absurd hst (by simp [ChannelState.in_map_state])

/-- Witness for C3: the invariant of a fresh connection carries over
the slot allocation performed by a concrete open_session call. -/
theorem sessions_map_invariant_witness :
    ConnInv (Connection.open_session (ConnectionInner.new ⟨4, 0⟩ ⟨4, 0⟩)).1 :=
  sessions_map_invariant.2.1 _ (sessions_map_invariant.1 ⟨4, 0⟩ ⟨4, 0⟩)

end Amqp
